import Mathlib

/-!
Verification development for the eth2 testnet convergence-detection engine
(`simulators/eth2/common/testnet/running_testnet.go`).

Shallow embedding conventions:
* `uint64` values are `Nat` with an explicit `% U64` wherever the Go code can
  wrap (multiplication, addition, subtraction on `uint64` / `big.Int.Uint64()`).
* 32-byte roots and execution hashes are modelled as `Nat` identifiers; the
  all-zero array (`tree.Root{}` / `ethcommon.Hash{}`) is modelled as `0`, and
  `bytes.Equal` on such arrays is equality of the identifiers.
* Fallible network queries are modelled as oracle arguments of `Option` type
  (`none` = the query returned a Go error); the probe goroutines become pure
  functions from the oracle answers of one tick to the `result` record they
  write.
* `float64` values produced by the health computations are modelled as
  `Option Rat`: `some q` is a finite float of exact value `q` (the claims are
  evaluated at inputs where IEEE-754 rounding is exact), `none` is a
  non-finite result (NaN or an infinity, produced by a zero denominator).
  Integer division by zero and out-of-range indexing, which panic in Go, are
  also modelled by `none` of the enclosing computation; each such spot is
  marked in a comment.
* Goroutine fan-out: within one tick every probe writes only its own `result`
  slot, so the barrier + aggregation step is a pure function of the per-node
  oracle answers. The `heads` channel of `WaitForSync` receives roots in
  goroutine completion order; the embedding fixes node-index order (the
  properties stated below do not depend on that order, except where the
  arrival order is made explicit in the statement).
* The `result` collection type (`makeResults`, `Clear`, `CheckError`,
  `AllDone`, the consecutive-error counters) is declared in this repository
  but its defining file is not part of the provided sources; those operations
  are modelled from the specification text (marked `Modelled from the spec`).
  Everything else is translated from `running_testnet.go`.
-/

namespace HiveTestnet

/-- 2^64, the wrap-around modulus of Go `uint64` arithmetic. -/
def U64 : Nat := 18446744073709551616

/-- The consensus-spec constants used by the embedded code
(`common.Spec` fields `SLOTS_PER_EPOCH`, `SECONDS_PER_SLOT`,
`BASE_REWARD_FACTOR`, `HYSTERESIS_QUOTIENT`). -/
structure SpecConsts where
  slotsPerEpoch : Nat
  secondsPerSlot : Nat
  baseRewardFactor : Nat
  hysteresisQuotient : Nat
deriving Repr, DecidableEq

/-- Source: `const slotsTolerance common.Slot = 2`. -/
def slotsTolerance : Nat := 2

/-- Source: `EpochTimeoutContext` — the timeout passed to
`context.WithTimeout`, in seconds:
`uint64((spec.SLOTS_PER_EPOCH*common.Slot(epochs))+slotsTolerance) *
uint64(spec.SECONDS_PER_SLOT)`, all operations on `uint64`. -/
def epochTimeoutSeconds (sp : SpecConsts) (epochs : Nat) : Nat :=
  (sp.slotsPerEpoch * epochs % U64 + slotsTolerance) % U64 * sp.secondsPerSlot % U64

/-- Source: `SlotTimeoutContext` — timeout in seconds:
`uint64(slots+slotsTolerance)*uint64(spec.SECONDS_PER_SLOT)`. -/
def slotTimeoutSeconds (sp : SpecConsts) (slots : Nat) : Nat :=
  (slots + slotsTolerance) % U64 * sp.secondsPerSlot % U64

/-- Source: `EpochsTimeout` — the one-shot `time.After` duration in seconds:
`uint64(spec.SLOTS_PER_EPOCH*common.Slot(epochs))*uint64(spec.SECONDS_PER_SLOT)`. -/
def epochsTimeoutSeconds (sp : SpecConsts) (epochs : Nat) : Nat :=
  sp.slotsPerEpoch * epochs % U64 * sp.secondsPerSlot % U64

/-- Source: `SlotsTimeout` — one-shot duration in seconds:
`uint64(slots)*uint64(spec.SECONDS_PER_SLOT)`. -/
def slotsTimeoutSeconds (sp : SpecConsts) (slots : Nat) : Nat :=
  slots % U64 * sp.secondsPerSlot % U64

/-- A `common.Checkpoint` (epoch and 32-byte root, the root modelled as a
`Nat` identifier). Go struct equality is componentwise. -/
structure Checkpoint where
  epoch : Nat
  root : Nat
deriving Repr, DecidableEq

/-- The zero value `common.Checkpoint{}` used by the code for emptiness
checks. -/
def emptyCheckpoint : Checkpoint := ⟨0, 0⟩

/-- The oracle answers that one node produces for the queries issued by one
probe goroutine during one tick.  `finalityErr` / `blockErr` /
`finalizedBlockErr` model a non-nil Go error from
`BlockFinalityCheckpoints`, `BlockV2(BlockHead)` and
`BlockV2(BlockIdRoot(finalized.Root))` respectively; the payload fields of a
failed query are irrelevant (the probe never reads them).
`execPayload = some h` models `versionedBlock.ExecutionPayload()` succeeding
with block hash `h`; `none` models it returning an error (pre-merge block). -/
structure Query where
  finalityErr : Bool := false
  finalized : Checkpoint := emptyCheckpoint
  currentJustified : Checkpoint := emptyCheckpoint
  blockErr : Bool := false
  headSlot : Nat := 0
  headRoot : Nat := 0
  version : String := ""
  execPayload : Option Nat := none
  finalizedBlockErr : Bool := false
  finalizedVersion : String := ""
  finalizedExecPayload : Option Nat := none
deriving Repr, DecidableEq

/-- The recoverable errors a probe can record in `r.err`, identified by the
wrap message used at the corresponding source line. -/
inductive ProbeError
  /-- wrap message `failed to poll finality checkpoint` -/
  | finalityPollFailed
  /-- wrap message `failed to retrieve block` -/
  | blockFetchFailed
  /-- wrap message `failed to poll head` -/
  | headPollFailed
deriving Repr, DecidableEq

/-- The fatal errors a probe can record in `r.fatal`, with the data
interpolated into the Go format string. -/
inductive FatalErr
  /-- error `missed more slots than allowed (max=%d): clockSlot=%d, slot=%d` -/
  | missedSlots (maxMissed clockSlot slot : Nat)
  /-- error `unable to sync for an entire epoch: clockSlot=%d, slot=%d` -/
  | unableToSync (clockSlot slot : Nat)
deriving Repr, DecidableEq

/-- The errors `results.CheckError()` can return to the wait loop. -/
inductive WaitErr
  /-- a fatal error recorded by some probe this tick -/
  | probeFatal (f : FatalErr)
  /-- Modelled from the spec: the synthesized fatal error for the node at the
  given index whose consecutive-error counter reached the maximum. -/
  | unresponsive (i : Nat)
deriving Repr, DecidableEq

/-- One slot of the per-tick `result` collection, as written by a probe
goroutine: the fields `err`, `fatal`, `done`, `result` of the Go `result`
struct (the human-readable `msg` field is observability-only and not
modelled). -/
structure PResult (α : Type) where
  err : Option ProbeError := none
  fatal : Option FatalErr := none
  done : Bool := false
  out : Option α := none
deriving Repr, DecidableEq

/-- Outcome of one loop iteration of a wait function after the barrier:
return with an error, return successfully with a value, or continue to the
next tick. -/
inductive TickOutcome (α : Type)
  /-- the wait function returns this error -/
  | fail (e : WaitErr)
  /-- the wait function returns successfully with this value -/
  | converged (v : α)
  /-- the loop continues to the next tick -/
  | next
deriving Repr, DecidableEq

/-- Modelled from the spec (the `result` collection file is not under the
provided sources): the per-node consecutive-error counters after a tick —
incremented on a tick whose probe recorded a recoverable error, reset to 0
otherwise. -/
def updateCounters {α : Type} (rs : List (PResult α)) (cs : List Nat) : List Nat :=
  List.zipWith (fun r c => if r.err.isSome then c + 1 else 0) rs cs

/-- The first fatal outcome of the tick, in node-index order. -/
def firstFatal {α : Type} (rs : List (PResult α)) : Option FatalErr :=
  (rs.filterMap (fun r => r.fatal)).head?

/-- Modelled from the spec: `results.CheckError()` — if any slot carries a
fatal outcome, return it immediately (fatal short-circuits); otherwise, if
any consecutive-error counter has reached the configured maximum, return a
synthesized fatal error naming that node; otherwise return nil.  `cs` is the
counter list after this tick's update. -/
def checkError {α : Type} (rs : List (PResult α)) (cs : List Nat) (maxErr : Nat) :
    Option WaitErr :=
  match firstFatal rs with
  | some f => some (WaitErr.probeFatal f)
  | none =>
    if cs.any (fun c => maxErr ≤ c) then
      some (WaitErr.unresponsive (cs.findIdx (fun c => maxErr ≤ c)))
    else
      none

/-- Modelled from the spec: `results.AllDone()` — true iff every slot's done
flag is set; a zero-node set is vacuously not done. -/
def allDone {α : Type} (rs : List (PResult α)) : Bool :=
  !rs.isEmpty && rs.all (fun r => r.done)

/-- The post-barrier sequence shared verbatim by every wait loop:
`wg.Wait()` (the barrier); `results.CheckError()`; on a non-nil error return
it, otherwise evaluate the completion step `k` of the concrete wait variant.
Also returns the updated consecutive-error counters. -/
def tickAfterBarrier {α β : Type} (rs : List (PResult α)) (cs : List Nat)
    (maxErr : Nat) (k : TickOutcome β) : TickOutcome β × List Nat :=
  (match checkError rs (updateCounters rs cs) maxErr with
   | some e => TickOutcome.fail e
   | none => k,
   updateCounters rs cs)

/-- Source: the probe goroutine of `WaitSlotsWithMaxMissedSlots`:
poll finality checkpoints, then the head block; fatal iff
`clockSlot > slot && (clockSlot-slot) >= maxMissedSlots`; never done. -/
def waitSlotsProbe (clockSlot maxMissed : Nat) (q : Query) : PResult Unit :=
  if q.finalityErr then { err := some ProbeError.finalityPollFailed }
  else if q.blockErr then { err := some ProbeError.blockFetchFailed }
  else if q.headSlot < clockSlot ∧ maxMissed ≤ clockSlot - q.headSlot then
    { fatal := some (FatalErr.missedSlots maxMissed clockSlot q.headSlot) }
  else { }

/-- Source: the probe goroutine of `WaitForFork`: poll finality checkpoints,
then the head block; fatal iff the node lags by at least
`SLOTS_PER_EPOCH`; done iff the head block's version equals the target
fork name. -/
def forkProbe (clockSlot spe : Nat) (fork : String) (q : Query) : PResult Unit :=
  if q.finalityErr then { err := some ProbeError.finalityPollFailed }
  else if q.blockErr then { err := some ProbeError.blockFetchFailed }
  else if q.headSlot < clockSlot ∧ spe ≤ clockSlot - q.headSlot then
    { fatal := some (FatalErr.unableToSync clockSlot q.headSlot) }
  else { done := q.version == fork }

/-- Source: the probe goroutine of `WaitForFinality`: poll finality
checkpoints, then the head block; fatal iff the node lags by at least
`SLOTS_PER_EPOCH`; done (with the checkpoint as the result value) iff the
finalized checkpoint is non-empty.  The `GetHealth` call of the goroutine
only feeds the status message and is not modelled here. -/
def finalityProbe (clockSlot spe : Nat) (q : Query) : PResult Checkpoint :=
  if q.finalityErr then { err := some ProbeError.finalityPollFailed }
  else if q.blockErr then { err := some ProbeError.blockFetchFailed }
  else if q.headSlot < clockSlot ∧ spe ≤ clockSlot - q.headSlot then
    { fatal := some (FatalErr.unableToSync clockSlot q.headSlot) }
  else if q.finalized ≠ emptyCheckpoint then
    { done := true, out := some q.finalized }
  else { }

/-- Source: the probe goroutine of `WaitForSync`: poll finality checkpoints,
then the head block (sending the head root on the `heads` channel on
success); done iff the finalized checkpoint is non-empty.  This probe
performs no head-lag check and records no fatal outcome.  `clockSlot` is in
scope in the goroutine but feeds only the status message. -/
def syncProbe (_clockSlot : Nat) (q : Query) : PResult Checkpoint :=
  if q.finalityErr then { err := some ProbeError.finalityPollFailed }
  else if q.blockErr then { err := some ProbeError.blockFetchFailed }
  else if q.finalized ≠ emptyCheckpoint then
    { done := true, out := some q.finalized }
  else { }

/-- Source: the probe goroutine of `WaitForExecutionFinality`: poll the head
block first; fatal iff the node lags by at least `SLOTS_PER_EPOCH`; then
poll finality checkpoints; if the finalized checkpoint is non-empty fetch
the finalized block, and done iff that block carries a non-empty execution
payload hash. -/
def execFinalityProbe (clockSlot spe : Nat) (q : Query) : PResult Checkpoint :=
  if q.blockErr then { err := some ProbeError.headPollFailed }
  else if q.headSlot < clockSlot ∧ spe ≤ clockSlot - q.headSlot then
    { fatal := some (FatalErr.unableToSync clockSlot q.headSlot) }
  else if q.finalityErr then { err := some ProbeError.finalityPollFailed }
  else if q.finalized ≠ emptyCheckpoint ∧ q.finalizedBlockErr then
    { err := some ProbeError.blockFetchFailed }
  else if (if q.finalized ≠ emptyCheckpoint then q.finalizedExecPayload.getD 0 else 0) ≠ 0 then
    { done := true, out := some q.finalized }
  else { }

/-- Source: the probe goroutine of `WaitForCurrentEpochFinalization`: poll
the head block first; fatal iff the node lags by at least
`SLOTS_PER_EPOCH`; then poll finality checkpoints; done iff the finalized
checkpoint is non-empty and its epoch is at least `epochToBeFinalized`. -/
def currentEpochFinProbe (clockSlot spe epochToBeFinalized : Nat) (q : Query) :
    PResult Checkpoint :=
  if q.blockErr then { err := some ProbeError.headPollFailed }
  else if q.headSlot < clockSlot ∧ spe ≤ clockSlot - q.headSlot then
    { fatal := some (FatalErr.unableToSync clockSlot q.headSlot) }
  else if q.finalityErr then { err := some ProbeError.finalityPollFailed }
  else if q.finalized ≠ emptyCheckpoint ∧ epochToBeFinalized ≤ q.finalized.epoch then
    { done := true, out := some q.finalized }
  else { }

/-- Source: the probe goroutine of `WaitForExecutionPayload`: poll the head
block; fatal iff the node lags by at least `SLOTS_PER_EPOCH`; done (with the
hash as the result value) iff the head block carries a non-empty execution
payload hash. -/
def execPayloadProbe (clockSlot spe : Nat) (q : Query) : PResult Nat :=
  if q.blockErr then { err := some ProbeError.blockFetchFailed }
  else if q.headSlot < clockSlot ∧ spe ≤ clockSlot - q.headSlot then
    { fatal := some (FatalErr.unableToSync clockSlot q.headSlot) }
  else if q.execPayload.getD 0 ≠ 0 then
    { done := true, out := some (q.execPayload.getD 0) }
  else { }

/-- Source: the loop of `WaitForSync` over the drained `heads` channel.
State `head` starts as the empty root (0): while `head` is empty it is
overwritten by the received root; after the first non-empty root, any
differing root sets `ok = false` and breaks.  The fold returns `some head`
iff `ok` is still true and `head` is non-empty. -/
def headsFoldGo (head : Nat) : List Nat → Option Nat
  | [] => if head ≠ 0 then some head else none
  | h :: t =>
    if head = 0 then headsFoldGo h t
    else if head ≠ h then none
    else headsFoldGo head t

/-- The convergence check of `WaitForSync` applied to the roots received on
the `heads` channel, in arrival order. -/
def headsFold (hs : List Nat) : Option Nat :=
  headsFoldGo 0 hs

/-- The roots sent on the `heads` channel during one tick of `WaitForSync`:
a probe sends its head root iff both of its queries succeeded (the send at
line `heads <- versionedBlock.Root()` is reached only after both queries).
Arrival order is goroutine completion order; the embedding uses node-index
order. -/
def syncHeads (qs : List Query) : List Nat :=
  qs.filterMap (fun q => if q.finalityErr ∨ q.blockErr then none else some q.headRoot)

/-- Source: one post-genesis iteration of the `WaitSlotsWithMaxMissedSlots`
loop: probe all running nodes, then `CheckError`, then increment
`slotsPassed` and return nil once `slotsPassed >= slots`. -/
def waitSlotsTick (clockSlot maxMissed maxErr slots slotsPassed : Nat)
    (qs : List Query) (cs : List Nat) : TickOutcome Unit × List Nat :=
  tickAfterBarrier (qs.map (waitSlotsProbe clockSlot maxMissed)) cs maxErr
    (if slots ≤ slotsPassed + 1 then TickOutcome.converged () else TickOutcome.next)

/-- Source: one post-genesis iteration of the `WaitForFork` loop. -/
def forkTick (clockSlot spe maxErr : Nat) (fork : String)
    (qs : List Query) (cs : List Nat) : TickOutcome Unit × List Nat :=
  tickAfterBarrier (qs.map (forkProbe clockSlot spe fork)) cs maxErr
    (if allDone (qs.map (forkProbe clockSlot spe fork)) then TickOutcome.converged ()
     else TickOutcome.next)

/-- The completion step shared by `WaitForFinality`,
`WaitForExecutionFinality`, `WaitForCurrentEpochFinalization` and
`WaitForExecutionPayload`: if `results.AllDone()`, return the value of
`results[0].result` when the type assertion succeeds, else continue. -/
def allDoneHead {α : Type} (rs : List (PResult α)) : TickOutcome α :=
  if allDone rs then
    match rs.head? >>= (fun r => r.out) with
    | some v => TickOutcome.converged v
    | none => TickOutcome.next
  else TickOutcome.next

/-- Source: one post-genesis iteration of the `WaitForFinality` loop. -/
def finalityTick (clockSlot spe maxErr : Nat)
    (qs : List Query) (cs : List Nat) : TickOutcome Checkpoint × List Nat :=
  tickAfterBarrier (qs.map (finalityProbe clockSlot spe)) cs maxErr
    (allDoneHead (qs.map (finalityProbe clockSlot spe)))

/-- Source: one post-genesis iteration of the `WaitForSync` loop: probe all
running nodes, `CheckError`, then drain the `heads` channel and return the
common head if the fold succeeds. -/
def syncTick (clockSlot maxErr : Nat)
    (qs : List Query) (cs : List Nat) : TickOutcome Nat × List Nat :=
  tickAfterBarrier (qs.map (syncProbe clockSlot)) cs maxErr
    (match headsFold (syncHeads qs) with
     | some h => TickOutcome.converged h
     | none => TickOutcome.next)

/-- Source: one post-genesis iteration of the `WaitForExecutionFinality`
loop. -/
def execFinalityTick (clockSlot spe maxErr : Nat)
    (qs : List Query) (cs : List Nat) : TickOutcome Checkpoint × List Nat :=
  tickAfterBarrier (qs.map (execFinalityProbe clockSlot spe)) cs maxErr
    (allDoneHead (qs.map (execFinalityProbe clockSlot spe)))

/-- Source: one post-genesis iteration of the `WaitForCurrentEpochFinalization`
loop.  `epochToBeFinalized` is the epoch that was current when the wait call
began. -/
def currentEpochFinTick (clockSlot spe epochToBeFinalized maxErr : Nat)
    (qs : List Query) (cs : List Nat) : TickOutcome Checkpoint × List Nat :=
  tickAfterBarrier (qs.map (currentEpochFinProbe clockSlot spe epochToBeFinalized)) cs maxErr
    (allDoneHead (qs.map (currentEpochFinProbe clockSlot spe epochToBeFinalized)))

/-- Source: one post-genesis iteration of the `WaitForExecutionPayload`
loop, including the terminal-total-difficulty gate.  `tdQuery` is the answer
of `executionClient.TotalDifficultyByNumber` this tick (`none` = error).
While `ttdReached` is false: if the query succeeds with `td < ttd` the tick
is skipped (`continue`) with no probes and untouched counters; if it
succeeds with `td >= ttd`, `ttdReached` becomes true and the probes run; if
it fails, the error is only logged and the probes run with `ttdReached`
still false.  Returns (outcome, new `ttdReached`, new counters). -/
def execPayloadTick (ttdReached : Bool) (tdQuery : Option Int) (ttd : Int)
    (clockSlot spe maxErr : Nat) (qs : List Query) (cs : List Nat) :
    TickOutcome Nat × Bool × List Nat :=
  match
    (if ttdReached then some true
     else match tdQuery with
       | some td => if ttd ≤ td then some true else none
       | none => some ttdReached : Option Bool)
  with
  | none => (TickOutcome.next, ttdReached, cs)
  | some reached =>
    ((tickAfterBarrier (qs.map (execPayloadProbe clockSlot spe)) cs maxErr
        (allDoneHead (qs.map (execPayloadProbe clockSlot spe)))).1, reached,
     (tickAfterBarrier (qs.map (execPayloadProbe clockSlot spe)) cs maxErr
        (allDoneHead (qs.map (execPayloadProbe clockSlot spe)))).2)

/-- A node bundle as seen by `WaitForExecutionPayload`: only the execution
client handle matters for the embedded fragment. -/
structure GoNode where
  executionClient : Nat
deriving Repr, DecidableEq

/-- Source: the initializer block of `WaitForExecutionPayload`:
`executionClient = runningNodes[0].ExecutionClient`, executed
unconditionally before the loop.  Go panics with an index-out-of-range
runtime error on an empty slice; the panic is modelled as `none` (no
(value, error) pair is ever returned on that path). -/
def waitForExecutionPayloadInit (runningNodes : List GoNode) : Option Nat :=
  match runningNodes with
  | [] => none
  | n :: _ => some n.executionClient

/-- Source: `const MAX_PARTICIPATION_SCORE = 7`. -/
def MAX_PARTICIPATION_SCORE : Nat := 7

/-- The constant `common.BASE_REWARDS_PER_EPOCH` (= 4) of the consensus
library used by `legacyCalcHealth`. -/
def BASE_REWARDS_PER_EPOCH : Nat := 4

/-- Source: `calcHealth` — sum the participation registry, divide by its
length in `float64`, divide by `MAX_PARTICIPATION_SCORE`.  The division by
the length is unguarded: an empty registry evaluates `0.0 / 0.0 = NaN`,
modelled as `none` (a non-finite float). -/
def calcHealth (p : List Nat) : Option Rat :=
  if p.length = 0 then none
  else some (((p.sum : Rat) / (p.length : Rat)) / (MAX_PARTICIPATION_SCORE : Rat))

/-- The fields of a phase0 validator record read by `GetHealth`. -/
structure Validator where
  activationEligibilityEpoch : Nat
  exitEpoch : Nat
  slashed : Bool
deriving Repr, DecidableEq

/-- Source: the validator filter of the phase0 branch of `GetHealth`:
indices of validators with
`epoch >= v.ActivationEligibilityEpoch && epoch < v.ExitEpoch && !v.Slashed`,
in registry order. -/
def activeValidatorIds (epoch : Nat) (vs : List Validator) : List Nat :=
  vs.enum.filterMap (fun iv =>
    if iv.2.activationEligibilityEpoch ≤ epoch ∧ epoch < iv.2.exitEpoch ∧ ¬iv.2.slashed
    then some iv.1 else none)

/-- The Go conversion `int64(b)` applied to a `uint64` balance, as in
`big.NewInt(int64(before[i].Balance))`: a two's-complement
reinterpretation — the value itself below `2^63`, the value minus `2^64`
otherwise. -/
def int64OfUint64 (b : Nat) : Int :=
  if b < 9223372036854775808 then (b : Int) else (b : Int) - (U64 : Int)

/-- Source: `legacyCalcHealth` — balance-delta health heuristic.
Each balance enters the `big.Int` sums through `big.NewInt(int64(balance))`,
i.e. after a `uint64` to `int64` two's-complement wrap (`int64OfUint64`);
the sums themselves are exact (possibly negative) integers.  `big.Int.Div`
is Euclidean division with a non-negative remainder, which for a positive
divisor is exactly the `Int` division of Lean; `.Uint64()` returns the low
64 bits in two's complement, i.e. the value modulo `2^64` (`% (U64 : Int)`,
then `toNat`).  The `reward` line is `uint64` arithmetic with wrap-around
multiplication; `avg_after - avg_before` is wrap-around `uint64`
subtraction.  `none` models a Go panic (the loop indexes `after[i]` for
`i` ranging over `before`, so a shorter `after` panics; `big.Int` and
`uint64` division by zero panic) or a non-finite float (zero denominator
in the final division). -/
def legacyCalcHealth (sp : SpecConsts) (before after : List Nat) : Option Rat :=
  if after.length < before.length then none
  else if before.length = 0 then none
  else
    let sumB : Int := (before.map int64OfUint64).sum
    let sumA : Int := ((after.take before.length).map int64OfUint64).sum
    let count : Int := (before.length : Int)
    let avgB : Nat := (sumB / count % (U64 : Int)).toNat
    let avgA : Nat := (sumA / count % (U64 : Int)).toNat
    let s := Nat.sqrt ((sumB % (U64 : Int)).toNat)
    if s = 0 then none
    else if sp.hysteresisQuotient = 0 then none
    else
      let reward := avgB * sp.baseRewardFactor % U64 / s / sp.hysteresisQuotient
      let den := reward * BASE_REWARDS_PER_EPOCH % U64
      if den = 0 then none
      else some ((((avgA + U64 - avgB) % U64 : Nat) : Rat) / (den : Rat))

/-- The phase0 score formula as the specification states it (claim C6):
`score = (avgBalanceAfter - avgBalanceBefore) / (reward * BASE_REWARDS_PER_EPOCH)`
with `reward = avgBalanceBefore * BASE_REWARD_FACTOR / isqrt(sumBalanceBefore)
/ HYSTERESIS_QUOTIENT` using integer division, both averages taken with
integer division by the validator count. -/
def specLegacyScore (sp : SpecConsts) (before after : List Nat) : Rat :=
  let avgB := before.sum / before.length
  let avgA := after.sum / before.length
  let reward := avgB * sp.baseRewardFactor / Nat.sqrt before.sum / sp.hysteresisQuotient
  ((avgA : Rat) - (avgB : Rat)) / ((reward * BASE_REWARDS_PER_EPOCH : Nat) : Rat)

/-- The fields of the fetched beacon state read by `GetHealth`:
`Version`, `CurrentEpochParticipation()` (`none` models a nil registry,
i.e. a pre-altair state), and the phase0 validator registry. -/
structure StateInfo where
  version : String
  currentEpochParticipation : Option (List Nat)
  validators : List Validator

/-- Source: `GetHealth` — fetch the state at the requested slot; on a
non-nil participation registry return `calcHealth` of it with no error;
otherwise require a phase0 state, filter the active validators, fetch their
balances at the first slot of the previous epoch (epoch 0 at genesis) and of
the current epoch, and return `legacyCalcHealth`.  `stateQuery` is the
answer of `BeaconStateV2` and `balances slotId ids` the answer of
`StateValidatorBalances`; epochs are `slot / SLOTS_PER_EPOCH` as in
`spec.SlotToEpoch` (the Go division panics when `SLOTS_PER_EPOCH` is zero;
theorems below assume it positive). -/
def GetHealth (sp : SpecConsts) (slot : Nat) (stateQuery : Option StateInfo)
    (balances : Nat → List Nat → Option (List Nat)) : Except String (Option Rat) :=
  match stateQuery with
  | none => Except.error "failed to retrieve state"
  | some st =>
    match st.currentEpochParticipation with
    | some reg => Except.ok (calcHealth reg)
    | none =>
      if st.version ≠ "phase0" then Except.error "calculate participation"
      else
        let epoch := slot / sp.slotsPerEpoch
        let validatorIds := activeValidatorIds epoch st.validators
        let afterEpoch := slot / sp.slotsPerEpoch
        let beforeEpoch := if afterEpoch ≠ 0 then afterEpoch - 1 else 0
        match balances (beforeEpoch * sp.slotsPerEpoch) validatorIds with
        | none => Except.error "failed to retrieve validator balances"
        | some balancesBefore =>
          match balances (afterEpoch * sp.slotsPerEpoch) validatorIds with
          | none => Except.error "failed to retrieve validator balances"
          | some balancesAfter =>
            Except.ok (legacyCalcHealth sp balancesBefore balancesAfter)

end HiveTestnet

namespace HiveTestnet

/-- C8: `EpochTimeoutContext` sets a context timeout of exactly
`(SLOTS_PER_EPOCH * nEpochs + 2) * SECONDS_PER_SLOT` seconds and
`SlotTimeoutContext` of exactly `(nSlots + 2) * SECONDS_PER_SLOT` seconds
(fixed tolerance of 2 slots); with `nEpochs = 2`, `SLOTS_PER_EPOCH = 32`,
`SECONDS_PER_SLOT = 12` the epoch timeout is 792 seconds; the one-shot
timers `EpochsTimeout` and `SlotsTimeout` add no tolerance.  The
hypotheses state that the `uint64` arithmetic does not wrap. -/
theorem timeout_durations (sp : SpecConsts) (epochs slots : Nat)
    (h1 : (sp.slotsPerEpoch * epochs + slotsTolerance) * sp.secondsPerSlot < U64)
    (h2 : (slots + slotsTolerance) * sp.secondsPerSlot < U64)
    (h3 : 0 < sp.secondsPerSlot) :
    epochTimeoutSeconds sp epochs = (sp.slotsPerEpoch * epochs + 2) * sp.secondsPerSlot ∧
    slotTimeoutSeconds sp slots = (slots + 2) * sp.secondsPerSlot ∧
    epochsTimeoutSeconds sp epochs = sp.slotsPerEpoch * epochs * sp.secondsPerSlot ∧
    slotsTimeoutSeconds sp slots = slots * sp.secondsPerSlot ∧
    epochTimeoutSeconds ⟨32, 12, 64, 4⟩ 2 = 792 := by
  have hse : sp.slotsPerEpoch * epochs + slotsTolerance < U64 := by
    calc sp.slotsPerEpoch * epochs + slotsTolerance
        ≤ (sp.slotsPerEpoch * epochs + slotsTolerance) * sp.secondsPerSlot :=
          Nat.le_mul_of_pos_right _ h3
      _ < U64 := h1
  have hs2 : slots + slotsTolerance < U64 := by
    calc slots + slotsTolerance ≤ (slots + slotsTolerance) * sp.secondsPerSlot :=
          Nat.le_mul_of_pos_right _ h3
      _ < U64 := h2
  have hm1 : sp.slotsPerEpoch * epochs < U64 := by omega
  have hml : slots < U64 := by omega
  have hp1 : sp.slotsPerEpoch * epochs * sp.secondsPerSlot < U64 := by
    have : sp.slotsPerEpoch * epochs * sp.secondsPerSlot ≤
        (sp.slotsPerEpoch * epochs + slotsTolerance) * sp.secondsPerSlot :=
      Nat.mul_le_mul_right _ (by omega)
    omega
  have hp2 : slots * sp.secondsPerSlot < U64 := by
    have : slots * sp.secondsPerSlot ≤ (slots + slotsTolerance) * sp.secondsPerSlot :=
      Nat.mul_le_mul_right _ (by omega)
    omega
  refine ⟨?_, ?_, ?_, ?_, by decide⟩
  · unfold epochTimeoutSeconds slotsTolerance at *
    rw [Nat.mod_eq_of_lt hm1, Nat.mod_eq_of_lt hse, Nat.mod_eq_of_lt h1]
  · unfold slotTimeoutSeconds slotsTolerance at *
    rw [Nat.mod_eq_of_lt hs2, Nat.mod_eq_of_lt h2]
  · unfold epochsTimeoutSeconds at *
    rw [Nat.mod_eq_of_lt hm1, Nat.mod_eq_of_lt hp1]
  · unfold slotsTimeoutSeconds at *
    rw [Nat.mod_eq_of_lt hml, Nat.mod_eq_of_lt hp2]

/-- Witness for `timeout_durations` at the concrete instance from the spec:
32 slots per epoch, 12 seconds per slot, 2 epochs / 5 slots. -/
theorem timeout_durations_witness :
    epochTimeoutSeconds ⟨32, 12, 64, 4⟩ 2 = (32 * 2 + 2) * 12 ∧
    slotTimeoutSeconds ⟨32, 12, 64, 4⟩ 5 = (5 + 2) * 12 ∧
    epochsTimeoutSeconds ⟨32, 12, 64, 4⟩ 2 = 32 * 2 * 12 ∧
    slotsTimeoutSeconds ⟨32, 12, 64, 4⟩ 5 = 5 * 12 ∧
    epochTimeoutSeconds ⟨32, 12, 64, 4⟩ 2 = 792 := by
  have h := timeout_durations ⟨32, 12, 64, 4⟩ 2 5 (by decide) (by decide) (by decide)
  exact ⟨h.1, h.2.1, h.2.2.1, h.2.2.2.1, h.2.2.2.2⟩

/-- C9: `WaitForExecutionPayload` unconditionally reads
`runningNodes[0].ExecutionClient` before entering its loop, so it requires a
non-empty running-node set: on an empty set the access panics
(index out of range, modelled `none`) instead of returning an error value,
while on a non-empty set it yields the first node's execution client. -/
theorem waitForExecutionPayload_requires_nonempty_nodes :
    waitForExecutionPayloadInit [] = none ∧
    ∀ (n : GoNode) (ns : List GoNode),
      waitForExecutionPayloadInit (n :: ns) = some n.executionClient :=
  ⟨rfl, fun _ _ => rfl⟩

/-- C10: `calcHealth` divides by the registry length without a guard, so an
empty participation registry evaluates `0.0 / 0.0`, a non-finite float
(NaN, modelled `none`); `GetHealth` then returns that value with a nil
error, i.e. `(NaN, nil)` — a score outside `[0, ∞)` with no error. -/
theorem getHealth_empty_registry_nan :
    calcHealth [] = none ∧
    GetHealth ⟨32, 12, 64, 4⟩ 5 (some ⟨"altair", some [], []⟩) (fun _ _ => none) =
      Except.ok none :=
  ⟨rfl, rfl⟩

end HiveTestnet

namespace HiveTestnet

/-- C3 counterexample: two concrete inputs on which the claim, as stated,
is false.  First, the `WaitForSync` probe performs no head-lag check at all:
a node whose head slot (0) lags the clock slot (64) by two full epochs
(threshold `SLOTS_PER_EPOCH = 32`) records no fatal outcome, although the
claim requires one for every wait variant.  Second, in
`WaitSlotsWithMaxMissedSlots` with `maxMissedSlots = 0` and a node exactly
at the clock slot, `clockSlot - observedHeadSlot = 0 ≥ 0` holds, so the
claim requires a fatal outcome, but the code also requires
`clockSlot > slot` and records none. -/
theorem lag_fatal_rule_counterexample :
    (syncProbe 64 { headSlot := 0, headRoot := 5 }).fatal = none ∧
    32 ≤ 64 - ({ headSlot := 0, headRoot := 5 : Query }).headSlot ∧
    (waitSlotsProbe 5 0 { headSlot := 5 }).fatal = none ∧
    0 ≤ 5 - ({ headSlot := 5 : Query }).headSlot := by
  refine ⟨rfl, by decide, rfl, by decide⟩

/-- C3 amended: a probe records the fatal missed-slots / unable-to-sync
outcome exactly when its preceding queries succeeded, the node is strictly
behind the clock (`clockSlot > observedHeadSlot`), and
`clockSlot - observedHeadSlot ≥ threshold` — the threshold being
`maxMissedSlots` for `WaitSlotsWithMaxMissedSlots` and `SLOTS_PER_EPOCH`
for `WaitForFork`, `WaitForFinality`, `WaitForExecutionFinality`,
`WaitForCurrentEpochFinalization` and `WaitForExecutionPayload`; the
`WaitForSync` probe performs no lag check and never records a fatal
outcome. -/
theorem lag_fatal_rules_amended :
    (∀ cS mm q, (waitSlotsProbe cS mm q).fatal.isSome = true ↔
       q.finalityErr = false ∧ q.blockErr = false ∧
       q.headSlot < cS ∧ mm ≤ cS - q.headSlot) ∧
    (∀ cS spe fork q, (forkProbe cS spe fork q).fatal.isSome = true ↔
       q.finalityErr = false ∧ q.blockErr = false ∧
       q.headSlot < cS ∧ spe ≤ cS - q.headSlot) ∧
    (∀ cS spe q, (finalityProbe cS spe q).fatal.isSome = true ↔
       q.finalityErr = false ∧ q.blockErr = false ∧
       q.headSlot < cS ∧ spe ≤ cS - q.headSlot) ∧
    (∀ cS q, (syncProbe cS q).fatal = none) ∧
    (∀ cS spe q, (execFinalityProbe cS spe q).fatal.isSome = true ↔
       q.blockErr = false ∧ q.headSlot < cS ∧ spe ≤ cS - q.headSlot) ∧
    (∀ cS spe e q, (currentEpochFinProbe cS spe e q).fatal.isSome = true ↔
       q.blockErr = false ∧ q.headSlot < cS ∧ spe ≤ cS - q.headSlot) ∧
    (∀ cS spe q, (execPayloadProbe cS spe q).fatal.isSome = true ↔
       q.blockErr = false ∧ q.headSlot < cS ∧ spe ≤ cS - q.headSlot) := by
  refine ⟨?_, ?_, ?_, ?_, ?_, ?_, ?_⟩
  · intro cS mm q
    unfold waitSlotsProbe
    split_ifs with h1 h2 h3 <;> simp_all
  · intro cS spe fork q
    unfold forkProbe
    split_ifs with h1 h2 h3 <;> simp_all
  · intro cS spe q
    unfold finalityProbe
    split_ifs with h1 h2 h3 h4 <;> simp_all
  · intro cS q
    unfold syncProbe
    split_ifs <;> rfl
  · intro cS spe q
    unfold execFinalityProbe
    split_ifs with h1 h2 h3 h4 h5 <;> simp_all
  · intro cS spe e q
    unfold currentEpochFinProbe
    split_ifs with h1 h2 h3 h4 <;> simp_all
  · intro cS spe q
    unfold execPayloadProbe
    split_ifs with h1 h2 h3 <;> simp_all

end HiveTestnet

namespace HiveTestnet

/-- C4 counterexample: a tick of `WaitForExecutionPayload` before the
terminal total difficulty has been observed (`ttdReached = false`) on which
the total-difficulty query fails (`tdQuery = none`).  The claim requires
this tick to be a no-op that probes no beacon node and cannot fail the
wait; the code instead logs the query error, falls through to the probe
fan-out, and here the single node's two-epoch head lag fails the wait
fatally. -/
theorem waitForExecutionPayload_probes_on_td_error :
    (execPayloadTick false none 10 64 32 3
      [{ headSlot := 0, headRoot := 5, version := "phase0" }] [0]).1 =
      TickOutcome.fail (WaitErr.probeFatal (FatalErr.unableToSync 64 0)) := by
  decide

/-- C4 amended: while the terminal total difficulty has not yet been
observed, a tick on which the total-difficulty query succeeds with a value
below the terminal value is a no-op retry — no beacon node is probed, no
outcome is recorded, the counters are untouched and the tick cannot fail
the wait; but a tick on which the total-difficulty query fails proceeds to
probe the beacon nodes exactly as a post-threshold tick does (with
`ttdReached` left false), so such a tick can record outcomes and fail the
wait. -/
theorem waitForExecutionPayload_gate_amended :
    (∀ (td ttd : Int) (cS spe mE : Nat) (qs : List Query) (cs : List Nat),
       td < ttd →
       execPayloadTick false (some td) ttd cS spe mE qs cs =
         (TickOutcome.next, false, cs)) ∧
    (∀ (ttd : Int) (cS spe mE : Nat) (qs : List Query) (cs : List Nat),
       execPayloadTick false none ttd cS spe mE qs cs =
         ((execPayloadTick true none ttd cS spe mE qs cs).1, false,
          (execPayloadTick true none ttd cS spe mE qs cs).2.2)) := by
  constructor
  · intro td ttd cS spe mE qs cs h
    have hn : ¬ ttd ≤ td := not_le.mpr h
    unfold execPayloadTick
    simp [hn]
  · intro ttd cS spe mE qs cs
    unfold execPayloadTick
    rfl

/-- Witness for `waitForExecutionPayload_gate_amended` at a concrete
instance: total difficulty 5 observed, terminal value 10. -/
theorem waitForExecutionPayload_gate_amended_witness :
    execPayloadTick false (some 5) 10 64 32 3 [{ headSlot := 0 }] [0] =
      (TickOutcome.next, false, [0]) ∧
    execPayloadTick false none 10 64 32 3 [{ headSlot := 0 }] [0] =
      ((execPayloadTick true none 10 64 32 3 [{ headSlot := 0 }] [0]).1, false,
       (execPayloadTick true none 10 64 32 3 [{ headSlot := 0 }] [0]).2.2) :=
  ⟨waitForExecutionPayload_gate_amended.1 5 10 64 32 3 [{ headSlot := 0 }] [0] (by decide),
   waitForExecutionPayload_gate_amended.2 10 64 32 3 [{ headSlot := 0 }] [0]⟩

end HiveTestnet

namespace HiveTestnet

/-- C7 counterexample: the participation registry `[7,7,7,0]` yields the
health score `(7+7+7+0)/4/7 = 0.75` (exactly representable, so the float
computation is exact), not approximately `0.7143` as the claim states: the
value differs from `0.7143` by more than `0.03`. -/
theorem calcHealth_sample_value_counterexample :
    calcHealth [7, 7, 7, 0] = some (3 / 4) ∧
    (3 / 4 : Rat) ≠ 7143 / 10000 ∧
    (1 / 100 : Rat) < |3 / 4 - 7143 / 10000| := by
  refine ⟨by norm_num [calcHealth, MAX_PARTICIPATION_SCORE], by norm_num, ?_⟩
  have h : (3 / 4 - 7143 / 10000 : Rat) = 357 / 10000 := by norm_num
  rw [h, abs_of_pos (by norm_num)]
  norm_num

/-- C7 amended: whenever the fetched state exposes a current-epoch
participation registry, `GetHealth` returns `mean(registry values) / 7`
(`MAX_PARTICIPATION_SCORE`) with no error; in particular a registry
`[7,7,7,0]` yields `(7+7+7+0)/4/7 = 0.75`. -/
theorem getHealth_participation_mean
    (sp : SpecConsts) (slot : Nat) (st : StateInfo)
    (bal : Nat → List Nat → Option (List Nat)) (reg : List Nat)
    (hreg : st.currentEpochParticipation = some reg) :
    GetHealth sp slot (some st) bal = Except.ok (calcHealth reg) ∧
    (reg ≠ [] →
      calcHealth reg = some (((reg.sum : Rat) / (reg.length : Rat)) / 7)) ∧
    calcHealth [7, 7, 7, 0] = some (3 / 4) := by
  refine ⟨?_, ?_, by norm_num [calcHealth, MAX_PARTICIPATION_SCORE]⟩
  · unfold GetHealth
    dsimp only
    rw [hreg]
  · intro hne
    unfold calcHealth
    rw [if_neg (by simpa using hne)]
    norm_num [MAX_PARTICIPATION_SCORE]

/-- Witness for `getHealth_participation_mean` at the concrete registry
`[7,7,7,0]` of the spec's example. -/
theorem getHealth_participation_mean_witness :
    GetHealth ⟨32, 12, 64, 4⟩ 0 (some ⟨"altair", some [7, 7, 7, 0], []⟩)
        (fun _ _ => none) = Except.ok (calcHealth [7, 7, 7, 0]) ∧
    calcHealth [7, 7, 7, 0] =
      some (((([7, 7, 7, 0] : List Nat).sum : Rat) / (([7, 7, 7, 0] : List Nat).length : Rat)) / 7) ∧
    calcHealth [7, 7, 7, 0] = some (3 / 4) := by
  have h := getHealth_participation_mean ⟨32, 12, 64, 4⟩ 0
    ⟨"altair", some [7, 7, 7, 0], []⟩ (fun _ _ => none) [7, 7, 7, 0] rfl
  exact ⟨h.1, h.2.1 (by decide), h.2.2⟩

end HiveTestnet

namespace HiveTestnet

/-- Unfolding equation of `headsFoldGo` on the empty list. -/
theorem headsFoldGo_nil (R : Nat) :
    headsFoldGo R [] = if R ≠ 0 then some R else none := rfl

/-- Unfolding equation of `headsFoldGo` on a cons cell. -/
theorem headsFoldGo_cons (R h : Nat) (t : List Nat) :
    headsFoldGo R (h :: t) =
      if R = 0 then headsFoldGo h t
      else if R ≠ h then none else headsFoldGo R t := rfl

/-- Characterization of the `WaitForSync` fold for a non-empty starting
head: once a non-empty head has been seen, the fold succeeds exactly when
every remaining received root equals it. -/
theorem headsFoldGo_pos_iff (R r : Nat) (hR : R ≠ 0) (hs : List Nat) :
    headsFoldGo R hs = some r ↔ r = R ∧ ∀ h ∈ hs, h = R := by
  induction hs with
  | nil =>
    rw [headsFoldGo_nil, if_pos hR]
    constructor
    · intro hx
      exact ⟨(Option.some_inj.mp hx).symm, by simp⟩
    · rintro ⟨rfl, -⟩
      rfl
  | cons h t ih =>
    rw [headsFoldGo_cons, if_neg hR]
    by_cases hh : R = h
    · rw [if_neg (fun hc => hc hh), ih]
      constructor
      · rintro ⟨rfl, ha⟩
        refine ⟨rfl, ?_⟩
        intro x hx
        rcases List.mem_cons.mp hx with hx | hx
        · rw [hx, ← hh]
        · exact ha x hx
      · rintro ⟨rfl, ha⟩
        exact ⟨rfl, fun x hx => ha x (List.mem_cons_of_mem h hx)⟩
    · rw [if_pos hh]
      constructor
      · intro hx
        cases hx
      · rintro ⟨rfl, ha⟩
        exact absurd (ha h (List.mem_cons_self h t)).symm hh

/-- Characterization of the `WaitForSync` convergence fold over the roots
received on the `heads` channel: it yields `some r` exactly when `r` is
non-empty, every root received before the first non-empty one is empty, the
first non-empty root is `r`, and every root received after it equals `r`. -/
theorem headsFold_some_iff (hs : List Nat) (r : Nat) :
    headsFold hs = some r ↔
      r ≠ 0 ∧ ∃ zs rest, hs = zs ++ r :: rest ∧
        (∀ z ∈ zs, z = 0) ∧ ∀ h ∈ rest, h = r := by
  induction hs with
  | nil =>
    unfold headsFold
    rw [headsFoldGo_nil, if_neg (fun hc => hc rfl)]
    constructor
    · intro hx
      cases hx
    · rintro ⟨-, zs, rest, habs, -, -⟩
      exact absurd habs.symm (List.append_ne_nil_of_right_ne_nil zs (by simp))
  | cons h t ih =>
    by_cases hh : h = 0
    · subst hh
      have hstep : headsFold (0 :: t) = headsFold t := by
        unfold headsFold
        rw [headsFoldGo_cons, if_pos rfl]
      rw [hstep, ih]
      constructor
      · rintro ⟨hr, zs, rest, rfl, hz, hrest⟩
        refine ⟨hr, 0 :: zs, rest, rfl, ?_, hrest⟩
        intro x hx
        rcases List.mem_cons.mp hx with hx | hx
        · exact hx
        · exact hz x hx
      · rintro ⟨hr, zs, rest, heq, hz, hrest⟩
        cases zs with
        | nil =>
          simp only [List.nil_append] at heq
          exact absurd (List.head_eq_of_cons_eq heq) (fun hb => hr hb.symm)
        | cons z zs =>
          simp only [List.cons_append] at heq
          refine ⟨hr, zs, rest, List.tail_eq_of_cons_eq heq, ?_, hrest⟩
          intro x hx
          exact hz x (List.mem_cons_of_mem z hx)
    · have hstep : headsFold (h :: t) = headsFoldGo h t := by
        unfold headsFold
        rw [headsFoldGo_cons, if_pos rfl]
      rw [hstep, headsFoldGo_pos_iff h r hh t]
      constructor
      · rintro ⟨rfl, ha⟩
        exact ⟨hh, [], t, rfl, by simp, ha⟩
      · rintro ⟨hr, zs, rest, heq, hz, hrest⟩
        cases zs with
        | nil =>
          simp only [List.nil_append] at heq
          have h1 : h = r := List.head_eq_of_cons_eq heq
          have h2 : t = rest := List.tail_eq_of_cons_eq heq
          subst h1
          subst h2
          exact ⟨rfl, hrest⟩
        | cons z zs =>
          simp only [List.cons_append] at heq
          have h1 : h = z := List.head_eq_of_cons_eq heq
          exact absurd (h1 ▸ hz z (List.mem_cons_self z zs)) hh

end HiveTestnet

namespace HiveTestnet

/-- C2 counterexample: a `WaitForSync` tick with three running nodes in
which the third node's head-block query fails (it reports no head root this
tick, its first recoverable error, below the budget of 3) while the other
two report the identical non-empty root 5.  The claim requires the wait not
to return on this tick because not every running node reported a head root;
the code returns successfully with root 5, since a node whose probe fails
sends nothing on the `heads` channel and the convergence fold only compares
the roots actually received. -/
theorem waitForSync_partial_report_counterexample :
    (syncTick 10 3
        [{ headRoot := 5 }, { headRoot := 5 }, { blockErr := true, headRoot := 9 }]
        [0, 0, 0]).1 = TickOutcome.converged 5 ∧
    ({ blockErr := true, headRoot := 9 : Query }).blockErr = true := by
  exact ⟨by decide, rfl⟩

/-- C2 amended: a `WaitForSync` tick returns root `r` exactly when
`CheckError` passes (no fatal outcome was recorded and no node's
consecutive-error budget is exhausted) and the sequence of head roots
actually received on the `heads` channel this tick — one root per node
whose two queries both succeeded, in arrival order — decomposes as: all
roots received before the first non-empty one are empty, the first
non-empty root is `r`, and every root received after it equals `r`.  In
particular nodes that failed to report this tick do not block convergence,
and a wholly empty receipt sequence does not converge. -/
theorem waitForSync_converged_iff (clockSlot maxErr : Nat) (qs : List Query)
    (cs : List Nat) (r : Nat) :
    (syncTick clockSlot maxErr qs cs).1 = TickOutcome.converged r ↔
      checkError (qs.map (syncProbe clockSlot))
        (updateCounters (qs.map (syncProbe clockSlot)) cs) maxErr = none ∧
      r ≠ 0 ∧
      ∃ zs rest, syncHeads qs = zs ++ r :: rest ∧
        (∀ z ∈ zs, z = 0) ∧ ∀ h ∈ rest, h = r := by
  rw [← headsFold_some_iff]
  unfold syncTick tickAfterBarrier
  cases hce : checkError (qs.map (syncProbe clockSlot))
      (updateCounters (qs.map (syncProbe clockSlot)) cs) maxErr with
  | none =>
    simp only [hce]
    cases hf : headsFold (syncHeads qs) with
    | none => simp [hf]
    | some h => simp [hf, eq_comm]
  | some e =>
    simp [hce]

end HiveTestnet

namespace HiveTestnet

/-- If no probe recorded a fatal outcome this tick, the fatal scan is
empty. -/
theorem firstFatal_none {α : Type} (rs : List (PResult α))
    (h : ∀ r ∈ rs, r.fatal = none) : firstFatal rs = none := by
  unfold firstFatal
  rw [List.filterMap_eq_nil_iff.mpr h]
  rfl

/-- On a tick without recoverable errors every consecutive-error counter is
reset to zero. -/
theorem counters_zero {α : Type} : ∀ (rs : List (PResult α)) (cs : List Nat),
    (∀ r ∈ rs, r.err = none) → ∀ c ∈ updateCounters rs cs, c = 0 := by
  intro rs
  induction rs with
  | nil =>
    intro cs h c hc
    simp [updateCounters] at hc
  | cons r rs ih =>
    intro cs h c hc
    cases cs with
    | nil => simp [updateCounters] at hc
    | cons c0 cs =>
      unfold updateCounters at hc
      rw [List.zipWith_cons_cons] at hc
      have hr : r.err = none := h r (List.mem_cons_self r rs)
      rcases List.mem_cons.mp hc with hx | hx
      · rw [hx, hr]
        rfl
      · exact ih cs (fun r2 hr2 => h r2 (List.mem_cons_of_mem r hr2)) c hx

/-- On a tick where every probe succeeded (no fatal, no recoverable error)
and the error budget is positive, `CheckError` passes. -/
theorem checkError_none_of_ok {α : Type} (rs : List (PResult α)) (cs : List Nat)
    (maxErr : Nat) (hmax : 0 < maxErr)
    (hf : ∀ r ∈ rs, r.fatal = none) (he : ∀ r ∈ rs, r.err = none) :
    checkError rs (updateCounters rs cs) maxErr = none := by
  unfold checkError
  rw [firstFatal_none rs hf, if_neg]
  intro hany
  rcases List.any_eq_true.mp hany with ⟨c, hc, hle⟩
  have h0 : c = 0 := counters_zero rs cs he c hc
  rw [h0] at hle
  exact absurd (of_decide_eq_true hle) (by omega)

/-- A `WaitForFinality` probe whose queries succeed and whose node does not
hit the lag rule reduces to the finality check. -/
theorem finalityProbe_ok (clockSlot spe : Nat) (q : Query)
    (h1 : q.finalityErr = false) (h2 : q.blockErr = false)
    (h3 : ¬(q.headSlot < clockSlot ∧ spe ≤ clockSlot - q.headSlot))
    (h4 : q.finalized ≠ emptyCheckpoint) :
    finalityProbe clockSlot spe q = { done := true, out := some q.finalized } := by
  unfold finalityProbe
  rw [if_neg (by simp [h1]), if_neg (by simp [h2]), if_neg h3, if_pos h4]

/-- C5: `WaitForFinality` marks a node done on a tick (its probe having run
to completion: both queries succeeded and the lag rule did not fire)
exactly when the observed finalized checkpoint is non-empty, recording that
checkpoint as the node's result value; `WaitForCurrentEpochFinalization`
marks a node done under the same conditions exactly when the finalized
checkpoint is non-empty and its epoch is at least the epoch that was
current when the wait began; and when every node is done, the
`WaitForFinality` tick returns the checkpoint recorded by the first node. -/
theorem finality_done_rules :
    (∀ (clockSlot spe : Nat) (q : Query),
      q.finalityErr = false → q.blockErr = false →
      ¬(q.headSlot < clockSlot ∧ spe ≤ clockSlot - q.headSlot) →
      (((finalityProbe clockSlot spe q).done = true) ↔ q.finalized ≠ emptyCheckpoint) ∧
      (finalityProbe clockSlot spe q).out =
        (if q.finalized ≠ emptyCheckpoint then some q.finalized else none)) ∧
    (∀ (clockSlot spe eTBF : Nat) (q : Query),
      q.blockErr = false → q.finalityErr = false →
      ¬(q.headSlot < clockSlot ∧ spe ≤ clockSlot - q.headSlot) →
      (((currentEpochFinProbe clockSlot spe eTBF q).done = true) ↔
        q.finalized ≠ emptyCheckpoint ∧ eTBF ≤ q.finalized.epoch)) ∧
    (∀ (clockSlot spe maxErr : Nat) (q : Query) (qs : List Query) (cs : List Nat),
      0 < maxErr →
      (∀ p ∈ q :: qs, p.finalityErr = false ∧ p.blockErr = false ∧
        ¬(p.headSlot < clockSlot ∧ spe ≤ clockSlot - p.headSlot) ∧
        p.finalized ≠ emptyCheckpoint) →
      (finalityTick clockSlot spe maxErr (q :: qs) cs).1 =
        TickOutcome.converged q.finalized) := by
  refine ⟨?_, ?_, ?_⟩
  · intro clockSlot spe q h1 h2 h3
    unfold finalityProbe
    split_ifs with hc1 hc2 hc3 hc4 <;> simp_all
  · intro clockSlot spe eTBF q h1 h2 h3
    unfold currentEpochFinProbe
    split_ifs with hc1 hc2 hc3 <;> simp_all
  · intro clockSlot spe maxErr q qs cs hmax hall
    have hok : ∀ p ∈ q :: qs,
        finalityProbe clockSlot spe p = { done := true, out := some p.finalized } := by
      intro p hp
      rcases hall p hp with ⟨h1, h2, h3, h4⟩
      exact finalityProbe_ok clockSlot spe p h1 h2 h3 h4
    have hfat : ∀ r ∈ (q :: qs).map (finalityProbe clockSlot spe), r.fatal = none := by
      intro r hr
      rcases List.mem_map.mp hr with ⟨p, hp, rfl⟩
      rw [hok p hp]
    have herr : ∀ r ∈ (q :: qs).map (finalityProbe clockSlot spe), r.err = none := by
      intro r hr
      rcases List.mem_map.mp hr with ⟨p, hp, rfl⟩
      rw [hok p hp]
    have hdone : ∀ r ∈ (q :: qs).map (finalityProbe clockSlot spe), r.done = true := by
      intro r hr
      rcases List.mem_map.mp hr with ⟨p, hp, rfl⟩
      rw [hok p hp]
    have hce := checkError_none_of_ok ((q :: qs).map (finalityProbe clockSlot spe))
      cs maxErr hmax hfat herr
    unfold finalityTick tickAfterBarrier
    rw [hce]
    show allDoneHead ((q :: qs).map (finalityProbe clockSlot spe)) =
      TickOutcome.converged q.finalized
    unfold allDoneHead
    rw [if_pos]
    · rw [List.map_cons, List.head?_cons, hok q (List.mem_cons_self q qs)]
      rfl
    · unfold allDone
      rw [List.map_cons, List.isEmpty_cons]
      rw [List.all_eq_true.mpr (by simpa using hdone)]
      rfl

/-- Witness for `finality_done_rules` at a concrete instance: one node with
finalized checkpoint (epoch 1, root 7), clock slot 10, 32 slots per epoch,
error budget 3. -/
theorem finality_done_rules_witness :
    (finalityProbe 10 32 { finalized := ⟨1, 7⟩ }).done = true ∧
    (currentEpochFinProbe 10 32 1 { finalized := ⟨1, 7⟩ }).done = true ∧
    (finalityTick 10 32 3 [{ finalized := ⟨1, 7⟩ }] [0]).1 =
      TickOutcome.converged ⟨1, 7⟩ :=
  ⟨((finality_done_rules.1 10 32 { finalized := ⟨1, 7⟩ } rfl rfl
      (by decide)).1).mpr (by decide),
   (finality_done_rules.2.1 10 32 1 { finalized := ⟨1, 7⟩ } rfl rfl
      (by decide)).mpr (by decide),
   finality_done_rules.2.2 10 32 3 { finalized := ⟨1, 7⟩ } [] [0]
     (by decide) (by decide)⟩

end HiveTestnet

namespace HiveTestnet

/-- When every balance is below `2^63` the `int64` reinterpretation is the
identity, so the mapped sum is the plain sum. -/
theorem int64_map_sum_of_small (l : List Nat)
    (h : ∀ b ∈ l, b < 9223372036854775808) :
    (l.map int64OfUint64).sum = (l.sum : Int) := by
  induction l with
  | nil => simp
  | cons b t ih =>
    have hb := h b (List.mem_cons_self b t)
    rw [List.map_cons, List.sum_cons, List.sum_cons,
      show int64OfUint64 b = (b : Int) from if_pos hb,
      ih (fun x hx => h x (List.mem_cons_of_mem b hx))]
    push_cast
    ring

/-- When every balance is below `2^63` (so the `int64` conversion does not
wrap), none of the `uint64` operations of `legacyCalcHealth` wraps, the
balance lists have equal positive length, the total balance is positive,
the derived reward is positive and the average balance did not decrease,
the computed score is exactly the score formula stated by the
specification. -/
theorem legacyCalcHealth_eq_spec (sp : SpecConsts) (before after : List Nat)
    (hlen : after.length = before.length)
    (hne : before ≠ [])
    (hB63 : ∀ b ∈ before, b < 9223372036854775808)
    (hA63 : ∀ b ∈ after, b < 9223372036854775808)
    (hsB : before.sum < U64)
    (hsA : after.sum < U64)
    (hmul : before.sum / before.length * sp.baseRewardFactor < U64)
    (hpos : 0 < before.sum)
    (hHQ : 0 < sp.hysteresisQuotient)
    (hrew : 0 < before.sum / before.length * sp.baseRewardFactor /
      Nat.sqrt before.sum / sp.hysteresisQuotient)
    (hrew4 : before.sum / before.length * sp.baseRewardFactor /
      Nat.sqrt before.sum / sp.hysteresisQuotient * BASE_REWARDS_PER_EPOCH < U64)
    (havg : before.sum / before.length ≤ after.sum / before.length) :
    legacyCalcHealth sp before after = some (specLegacyScore sp before after) := by
  have hcount : before.length ≠ 0 := by
    intro h0
    exact hne (List.length_eq_zero.mp h0)
  have htake : after.take before.length = after := by
    rw [← hlen]
    exact List.take_length after
  have hdivB : before.sum / before.length < U64 :=
    lt_of_le_of_lt (Nat.div_le_self _ _) hsB
  have hdivA : after.sum / before.length < U64 :=
    lt_of_le_of_lt (Nat.div_le_self _ _) hsA
  have hsqrt : Nat.sqrt before.sum ≠ 0 := by
    have := Nat.sqrt_pos.mpr hpos
    omega
  have hden : before.sum / before.length * sp.baseRewardFactor /
      Nat.sqrt before.sum / sp.hysteresisQuotient * BASE_REWARDS_PER_EPOCH ≠ 0 := by
    unfold BASE_REWARDS_PER_EPOCH
    omega
  have hwrap : ∀ A B : Nat, B ≤ A → A < U64 → (A + U64 - B) % U64 = A - B := by
    intro A B hBA hA
    unfold U64 at *
    omega
  have hnum : (after.sum / before.length + U64 - before.sum / before.length) % U64 =
      after.sum / before.length - before.sum / before.length :=
    hwrap _ _ havg hdivA
  have hsumB : (before.map int64OfUint64).sum = (before.sum : Int) :=
    int64_map_sum_of_small before hB63
  have hsumA : (after.map int64OfUint64).sum = (after.sum : Int) :=
    int64_map_sum_of_small after hA63
  have havgBeq : ((before.sum : Int) / (before.length : Int) % (U64 : Int)).toNat =
      before.sum / before.length := by
    rw [← Int.natCast_div,
      Int.emod_eq_of_lt (Int.natCast_nonneg _) (by exact_mod_cast hdivB),
      Int.toNat_natCast]
  have havgAeq : ((after.sum : Int) / (before.length : Int) % (U64 : Int)).toNat =
      after.sum / before.length := by
    rw [← Int.natCast_div,
      Int.emod_eq_of_lt (Int.natCast_nonneg _) (by exact_mod_cast hdivA),
      Int.toNat_natCast]
  have hsarg : ((before.sum : Int) % (U64 : Int)).toNat = before.sum := by
    rw [Int.emod_eq_of_lt (Int.natCast_nonneg _) (by exact_mod_cast hsB),
      Int.toNat_natCast]
  simp only [legacyCalcHealth, specLegacyScore]
  rw [if_neg (by omega : ¬ after.length < before.length), if_neg hcount, htake,
    hsumB, hsumA, havgBeq, havgAeq, hsarg,
    Nat.mod_eq_of_lt hmul, Nat.mod_eq_of_lt hrew4, if_neg hsqrt,
    if_neg (by omega : ¬ sp.hysteresisQuotient = 0), if_neg hden, hnum,
    Nat.cast_sub havg]

/-- C6: on the pre-altair (phase0) path, `GetHealth` restricts to the
validators active at the epoch of the requested slot (eligibility epoch
reached, not yet exited, not slashed), fetches their balances at the first
slot of the previous epoch and of the current epoch (both epoch 0 when the
current epoch is 0), and returns
`(avgBalanceAfter - avgBalanceBefore) / (reward * BASE_REWARDS_PER_EPOCH)`
with `reward = avgBalanceBefore * BASE_REWARD_FACTOR / isqrt(sumBalanceBefore)
/ HYSTERESIS_QUOTIENT` under integer division — stated under hypotheses
that make the formula well defined and the integer arithmetic exact
(equal-length non-empty balance lists, every balance below `2^63` so the
`int64` conversion does not wrap, positive sums and reward, non-decreasing
average, no `uint64` wrap-around). -/
theorem getHealth_phase0_score (sp : SpecConsts) (slot : Nat) (st : StateInfo)
    (bal : Nat → List Nat → Option (List Nat)) (bB bA : List Nat)
    (hver : st.version = "phase0")
    (hpart : st.currentEpochParticipation = none)
    (hbB : bal ((if slot / sp.slotsPerEpoch ≠ 0 then slot / sp.slotsPerEpoch - 1 else 0) *
        sp.slotsPerEpoch)
        (activeValidatorIds (slot / sp.slotsPerEpoch) st.validators) = some bB)
    (hbA : bal (slot / sp.slotsPerEpoch * sp.slotsPerEpoch)
        (activeValidatorIds (slot / sp.slotsPerEpoch) st.validators) = some bA)
    (hlen : bA.length = bB.length)
    (hne : bB ≠ [])
    (hB63 : ∀ b ∈ bB, b < 9223372036854775808)
    (hA63 : ∀ b ∈ bA, b < 9223372036854775808)
    (hsB : bB.sum < U64)
    (hsA : bA.sum < U64)
    (hmul : bB.sum / bB.length * sp.baseRewardFactor < U64)
    (hpos : 0 < bB.sum)
    (hHQ : 0 < sp.hysteresisQuotient)
    (hrew : 0 < bB.sum / bB.length * sp.baseRewardFactor /
      Nat.sqrt bB.sum / sp.hysteresisQuotient)
    (hrew4 : bB.sum / bB.length * sp.baseRewardFactor /
      Nat.sqrt bB.sum / sp.hysteresisQuotient * BASE_REWARDS_PER_EPOCH < U64)
    (havg : bB.sum / bB.length ≤ bA.sum / bB.length) :
    GetHealth sp slot (some st) bal = Except.ok (some (specLegacyScore sp bB bA)) := by
  unfold GetHealth
  dsimp only
  rw [hpart, if_neg (fun hc => hc hver), hbB, hbA]
  show Except.ok (legacyCalcHealth sp bB bA) =
    Except.ok (some (specLegacyScore sp bB bA))
  rw [legacyCalcHealth_eq_spec sp bB bA hlen hne hB63 hA63 hsB hsA hmul hpos hHQ
    hrew hrew4 havg]

/-- Witness for `getHealth_phase0_score`: one active validator (eligible
from epoch 0, exit epoch 10, not slashed) at slot 64 (epoch 2, so balances
are fetched at slots 32 and 64), balance 100 before and 110 after, spec
constants (32 slots/epoch, 12 s/slot, reward factor 64, hysteresis quotient
4): reward = 100 * 64 / isqrt(100) / 4 = 160 and the score is
(110 - 100) / (160 * 4) = 1/64. -/
theorem getHealth_phase0_score_witness :
    GetHealth ⟨32, 12, 64, 4⟩ 64 (some ⟨"phase0", none, [⟨0, 10, false⟩]⟩)
        (fun s ids =>
          if s = 32 ∧ ids = [0] then some [100]
          else if s = 64 ∧ ids = [0] then some [110] else none) =
      Except.ok (some (specLegacyScore ⟨32, 12, 64, 4⟩ [100] [110])) ∧
    specLegacyScore ⟨32, 12, 64, 4⟩ [100] [110] = 1 / 64 := by
  have hsq : Nat.sqrt 100 = 10 := (Nat.eq_sqrt.mpr (by norm_num)).symm
  constructor
  · exact getHealth_phase0_score ⟨32, 12, 64, 4⟩ 64 ⟨"phase0", none, [⟨0, 10, false⟩]⟩
      (fun s ids =>
        if s = 32 ∧ ids = [0] then some [100]
        else if s = 64 ∧ ids = [0] then some [110] else none)
      [100] [110] rfl rfl (by decide) (by decide) (by decide) (by decide)
      (by intro b hb; rw [List.mem_singleton] at hb; omega)
      (by intro b hb; rw [List.mem_singleton] at hb; omega)
      (by decide) (by decide) (by decide) (by decide) (by decide)
      (by simp only [List.sum_cons, List.sum_nil, List.length_cons,
            List.length_nil, Nat.add_zero, hsq]; omega)
      (by simp only [List.sum_cons, List.sum_nil, List.length_cons,
            List.length_nil, Nat.add_zero, hsq, BASE_REWARDS_PER_EPOCH, U64]; omega)
      (by decide)
  · simp only [specLegacyScore, List.sum_cons, List.sum_nil, List.length_cons,
      List.length_nil, Nat.add_zero, hsq, BASE_REWARDS_PER_EPOCH]
    norm_num

end HiveTestnet

namespace HiveTestnet

/-- A non-nil result of `CheckError` makes the post-barrier step return it
as the wait function's error, whatever the completion step would have
decided. -/
theorem tickAfterBarrier_fail {α β : Type} (rs : List (PResult α)) (cs : List Nat)
    (maxErr : Nat) (k : TickOutcome β) (e : WaitErr)
    (h : checkError rs (updateCounters rs cs) maxErr = some e) :
    (tickAfterBarrier rs cs maxErr k).1 = TickOutcome.fail e := by
  unfold tickAfterBarrier
  rw [h]

/-- A fatal probe outcome short-circuits `CheckError`, whatever the
counters and the error budget are, and whichever done flags are set. -/
theorem checkError_of_firstFatal {α : Type} (rs : List (PResult α)) (cs : List Nat)
    (maxErr : Nat) (f : FatalErr) (h : firstFatal rs = some f) :
    checkError rs cs maxErr = some (WaitErr.probeFatal f) := by
  unfold checkError
  rw [h]

/-- C1: in every wait variant the post-barrier error check
(`results.CheckError`) is evaluated before the completion predicate
(`AllDone` / slot count / head comparison) on every loop iteration, so on
any tick in which some node's probe records a fatal outcome the wait
function returns that (first) fatal error — it cannot return success on
that tick even if every node's done flag is set.  For `WaitForSync`, whose
probe records no fatal outcome itself, any non-nil `CheckError` result
(e.g. an exhausted consecutive-error budget) likewise pre-empts the head
comparison. -/
theorem fatal_error_checked_before_completion :
    (∀ (α : Type) (rs : List (PResult α)) (cs : List Nat) (maxErr : Nat) (f : FatalErr),
      firstFatal rs = some f →
      checkError rs cs maxErr = some (WaitErr.probeFatal f)) ∧
    (∀ cS mm mE slots sPassed (qs : List Query) (cs : List Nat) (f : FatalErr),
      firstFatal (qs.map (waitSlotsProbe cS mm)) = some f →
      (waitSlotsTick cS mm mE slots sPassed qs cs).1 =
        TickOutcome.fail (WaitErr.probeFatal f)) ∧
    (∀ cS spe mE (fork : String) (qs : List Query) (cs : List Nat) (f : FatalErr),
      firstFatal (qs.map (forkProbe cS spe fork)) = some f →
      (forkTick cS spe mE fork qs cs).1 = TickOutcome.fail (WaitErr.probeFatal f)) ∧
    (∀ cS spe mE (qs : List Query) (cs : List Nat) (f : FatalErr),
      firstFatal (qs.map (finalityProbe cS spe)) = some f →
      (finalityTick cS spe mE qs cs).1 = TickOutcome.fail (WaitErr.probeFatal f)) ∧
    (∀ cS mE (qs : List Query) (cs : List Nat) (e : WaitErr),
      checkError (qs.map (syncProbe cS))
        (updateCounters (qs.map (syncProbe cS)) cs) mE = some e →
      (syncTick cS mE qs cs).1 = TickOutcome.fail e) ∧
    (∀ cS spe mE (qs : List Query) (cs : List Nat) (f : FatalErr),
      firstFatal (qs.map (execFinalityProbe cS spe)) = some f →
      (execFinalityTick cS spe mE qs cs).1 = TickOutcome.fail (WaitErr.probeFatal f)) ∧
    (∀ cS spe eTBF mE (qs : List Query) (cs : List Nat) (f : FatalErr),
      firstFatal (qs.map (currentEpochFinProbe cS spe eTBF)) = some f →
      (currentEpochFinTick cS spe eTBF mE qs cs).1 =
        TickOutcome.fail (WaitErr.probeFatal f)) ∧
    (∀ (tdQ : Option Int) (ttd : Int) cS spe mE (qs : List Query) (cs : List Nat)
        (f : FatalErr),
      firstFatal (qs.map (execPayloadProbe cS spe)) = some f →
      (execPayloadTick true tdQ ttd cS spe mE qs cs).1 =
        TickOutcome.fail (WaitErr.probeFatal f)) := by
  refine ⟨?_, ?_, ?_, ?_, ?_, ?_, ?_, ?_⟩
  · intro α rs cs maxErr f h
    exact checkError_of_firstFatal rs cs maxErr f h
  · intro cS mm mE slots sPassed qs cs f h
    unfold waitSlotsTick
    exact tickAfterBarrier_fail _ _ _ _ _ (checkError_of_firstFatal _ _ _ _ h)
  · intro cS spe mE fork qs cs f h
    unfold forkTick
    exact tickAfterBarrier_fail _ _ _ _ _ (checkError_of_firstFatal _ _ _ _ h)
  · intro cS spe mE qs cs f h
    unfold finalityTick
    exact tickAfterBarrier_fail _ _ _ _ _ (checkError_of_firstFatal _ _ _ _ h)
  · intro cS mE qs cs e h
    unfold syncTick
    exact tickAfterBarrier_fail _ _ _ _ _ h
  · intro cS spe mE qs cs f h
    unfold execFinalityTick
    exact tickAfterBarrier_fail _ _ _ _ _ (checkError_of_firstFatal _ _ _ _ h)
  · intro cS spe eTBF mE qs cs f h
    unfold currentEpochFinTick
    exact tickAfterBarrier_fail _ _ _ _ _ (checkError_of_firstFatal _ _ _ _ h)
  · intro tdQ ttd cS spe mE qs cs f h
    unfold execPayloadTick
    exact tickAfterBarrier_fail _ _ _ _ _ (checkError_of_firstFatal _ _ _ _ h)

/-- Witness for `fatal_error_checked_before_completion`: concrete ticks with
clock slot 64, one epoch = 32 slots, error budget 3, a lagging node at head
slot 0 recording the fatal outcome; for `WaitForFinality` a second node is
done (finalized checkpoint (1,7), head at the clock slot) and for
`WaitForSync` two nodes report the identical head root 5 while the third
node exhausts its error budget — the tick still fails. -/
theorem fatal_error_checked_before_completion_witness :
    checkError [({ fatal := some (FatalErr.unableToSync 64 0) } : PResult Unit)] [0] 3 =
      some (WaitErr.probeFatal (FatalErr.unableToSync 64 0)) ∧
    (waitSlotsTick 64 32 3 10 0 [{ headSlot := 0 }] [0]).1 =
      TickOutcome.fail (WaitErr.probeFatal (FatalErr.missedSlots 32 64 0)) ∧
    (forkTick 64 32 3 "deneb" [{ headSlot := 0 }] [0]).1 =
      TickOutcome.fail (WaitErr.probeFatal (FatalErr.unableToSync 64 0)) ∧
    (finalityTick 64 32 3
        [{ finalized := ⟨1, 7⟩, headSlot := 64 }, { headSlot := 0 }] [0, 0]).1 =
      TickOutcome.fail (WaitErr.probeFatal (FatalErr.unableToSync 64 0)) ∧
    (syncTick 10 3
        [{ blockErr := true }, { headRoot := 5 }, { headRoot := 5 }] [2, 0, 0]).1 =
      TickOutcome.fail (WaitErr.unresponsive 0) ∧
    (execFinalityTick 64 32 3 [{ headSlot := 0 }] [0]).1 =
      TickOutcome.fail (WaitErr.probeFatal (FatalErr.unableToSync 64 0)) ∧
    (currentEpochFinTick 64 32 1 3 [{ headSlot := 0 }] [0]).1 =
      TickOutcome.fail (WaitErr.probeFatal (FatalErr.unableToSync 64 0)) ∧
    (execPayloadTick true none 0 64 32 3 [{ headSlot := 0 }] [0]).1 =
      TickOutcome.fail (WaitErr.probeFatal (FatalErr.unableToSync 64 0)) :=
  ⟨fatal_error_checked_before_completion.1 Unit _ [0] 3 _ (by decide),
   fatal_error_checked_before_completion.2.1 64 32 3 10 0 _ [0] _ (by decide),
   fatal_error_checked_before_completion.2.2.1 64 32 3 "deneb" _ [0] _ (by decide),
   fatal_error_checked_before_completion.2.2.2.1 64 32 3 _ [0, 0] _ (by decide),
   fatal_error_checked_before_completion.2.2.2.2.1 10 3 _ [2, 0, 0] _ (by decide),
   fatal_error_checked_before_completion.2.2.2.2.2.1 64 32 3 _ [0] _ (by decide),
   fatal_error_checked_before_completion.2.2.2.2.2.2.1 64 32 1 3 _ [0] _ (by decide),
   fatal_error_checked_before_completion.2.2.2.2.2.2.2 none 0 64 32 3 _ [0] _ (by decide)⟩

end HiveTestnet
